import Mathlib

/-!
Verification of the Task Resolution & Streak Engine of the lifeOS repository.

The TypeScript services are shallowly embedded as pure Lean functions:

* Calendar dates: every date handled by the source is an ISO `YYYY-MM-DD`
  string parsed by the JavaScript `Date` constructor at UTC midnight; all
  operations the code performs on such dates (comparison, one-day steps,
  `getDay`, `getDate`, `getFullYear`/`getMonth`, re-formatting) factor through
  the number of days since 1970-01-01.  A date is therefore modelled as that
  integer day number (`Int`), with proleptic-Gregorian conversions
  `civilFromDays` / `civilToDays` giving the `getDate`-style fields and
  `formatDate` the `YYYY-MM-DD` rendering.
* The IndexedDB store: the `taskInstances` collection is modelled as a
  `List TaskInstance`; `put` (keyed by the `id` field) replaces the record
  carrying the same id, or appends when the id is new, and the by-date /
  by-taskId index reads become list filters.
* `async` methods have no internal concurrency, so they are embedded as
  plain functions of the store state; `new Date().toISOString()` timestamps
  are passed in as an explicit `now : String` argument.
-/

namespace LifeOS

/-! ## Calendar-day arithmetic (the JS `Date` behaviour used by the source) -/

/-- Proleptic Gregorian conversion from a day count since 1970-01-01 to
(year, month, day-of-month); this is the calendar implemented by the JS
`Date` getters (`getFullYear`, `getMonth`+1, `getDate`) for a UTC-midnight
instant.  Intermediate divisions are on non-negative values, so truncating
`Int.div` is exact. -/
def civilFromDays (z0 : Int) : Int × Nat × Nat :=
  let z := z0 + 719468
  let era := (if 0 ≤ z then z else z - 146096).tdiv 146097
  let doe := z - era * 146097
  let yoe := (doe - doe.tdiv 1460 + doe.tdiv 36524 - doe.tdiv 146096).tdiv 365
  let y := yoe + era * 400
  let doy := doe - (365 * yoe + yoe.tdiv 4 - yoe.tdiv 100)
  let mp := (5 * doy + 2).tdiv 153
  let d := doy - (153 * mp + 2).tdiv 5 + 1
  let m := if mp < 10 then mp + 3 else mp - 9
  (if m ≤ 2 then y + 1 else y, m.toNat, d.toNat)

/-- Inverse conversion: day count since 1970-01-01 of a civil (y, m, d). -/
def civilToDays (y0 : Int) (m : Nat) (d : Nat) : Int :=
  let y := if m ≤ 2 then y0 - 1 else y0
  let era := (if 0 ≤ y then y else y - 399).tdiv 400
  let yoe := y - era * 400
  let doy := (153 * ((m : Int) + (if 2 < (m : Int) then -3 else 9)) + 2).tdiv 5 + (d : Int) - 1
  let doe := yoe * 365 + yoe.tdiv 4 - yoe.tdiv 100 + doy
  era * 146097 + doe - 719468

/-- JS `Date.prototype.getDay`: 0 = Sunday .. 6 = Saturday.
1970-01-01 (day 0) was a Thursday (4). -/
def weekdayOf (z : Int) : Nat := ((z + 4).emod 7).toNat

/-- JS `Date.prototype.getDate`: the day-of-month field. -/
def dayOfMonthOf (z : Int) : Nat := (civilFromDays z).2.2

/-- `String.prototype.padStart(2, '0')` as used by the services' `formatDate`. -/
def pad2 (n : Nat) : String := if n < 10 then "0" ++ toString n else toString n

/-- The services' private `formatDate`: render a day number as `YYYY-MM-DD`. -/
def formatDate (z : Int) : String :=
  let c := civilFromDays z
  toString c.1 ++ "-" ++ pad2 c.2.1 ++ "-" ++ pad2 c.2.2

/-! ## Data model (src/app/models) -/

/-- RecurrenceRule.type in task.model.ts:
'once' | 'daily' | 'weekly' | 'monthly' | 'custom'. -/
inductive RecType where
  | once
  | daily
  | weekly
  | monthly
  | custom
deriving DecidableEq, Repr

/-- RecurrenceRule (task.model.ts). -/
structure RecurrenceRule where
  type : RecType
  /-- daysOfWeek?: number[] (0 = Sunday .. 6 = Saturday) -/
  daysOfWeek : Option (List Nat)
  /-- dayOfMonth?: number (1-31) -/
  dayOfMonth : Option Nat
  /-- startDate: ISO date string, as a day number -/
  startDate : Int
  /-- endDate?: ISO date string, as a day number -/
  endDate : Option Int
deriving DecidableEq, Repr

/-- LocationCondition (task.model.ts).  LocationType is a string union, kept
as `String` here. -/
structure LocationCondition where
  allowedLocations : Option (List String)
  excludedLocations : Option (List String)
deriving DecidableEq, Repr

/-- Task (task.model.ts).  Presentation-only fields (input type, reminder,
dropdown options, createdAt) are not consumed by the verified services and
are omitted. -/
structure Task where
  id : String
  title : String
  recurrence : RecurrenceRule
  locationCondition : Option LocationCondition
  streakEnabled : Bool
  priority : Nat
  isArchived : Bool
deriving DecidableEq, Repr

/-- TaskInstance.status: 'pending' | 'completed' | 'skipped'. -/
inductive Status where
  | pending
  | completed
  | skipped
deriving DecidableEq, Repr

/-- TaskInstance.value?: number | string. -/
inductive TaskValue where
  | num (n : Int)
  | str (s : String)
deriving DecidableEq, Repr

/-- TaskInstance (task.model.ts): the per-(task, date) completion record. -/
structure TaskInstance where
  id : String
  taskId : String
  date : Int
  status : Status
  value : Option TaskValue
  completedAt : Option String
deriving DecidableEq, Repr

/-- CalendarDayView (models). -/
structure CalendarDayView where
  date : Int
  tasksCompleted : Nat
  tasksTotal : Nat
  hasNote : Bool
  hasFinanceEntry : Bool
  streakBroken : Bool
  icons : List String
deriving DecidableEq, Repr

/-- The slice of the persistent store the verified services read and write:
the `tasks` collection and the `taskInstances` collection. -/
structure AppState where
  tasks : List Task
  instances : List TaskInstance
deriving DecidableEq, Repr

/-! ## RecurrenceEngineService -/

/-- RecurrenceEngineService.checkWeeklyRecurrence. -/
def checkWeeklyRecurrence (date : Int) (rule : RecurrenceRule) : Bool :=
  match rule.daysOfWeek with
  | none => false
  | some days => if days.length = 0 then false else days.contains (weekdayOf date)

/-- RecurrenceEngineService.checkMonthlyRecurrence.  The JS guard
`if (!rule.dayOfMonth)` is truthiness: both an absent field and the value 0
take the `return false` branch. -/
def checkMonthlyRecurrence (date : Int) (rule : RecurrenceRule) : Bool :=
  match rule.dayOfMonth with
  | none => false
  | some dm => if dm = 0 then false else dayOfMonthOf date == dm

/-- RecurrenceEngineService.checkCustomRecurrence: the weekly check applies
only when `daysOfWeek` is present and non-empty, the monthly check only when
`dayOfMonth` is truthy; each defaults to true otherwise. -/
def checkCustomRecurrence (date : Int) (rule : RecurrenceRule) : Bool :=
  let weeklyMatch :=
    match rule.daysOfWeek with
    | some days => if 0 < days.length then checkWeeklyRecurrence date rule else true
    | none => true
  let monthlyMatch :=
    match rule.dayOfMonth with
    | some dm => if dm ≠ 0 then checkMonthlyRecurrence date rule else true
    | none => true
  weeklyMatch && monthlyMatch

/-- RecurrenceEngineService.doesTaskOccurOnDate.  `isSameDate` on two
UTC-midnight dates is equality of their day numbers. -/
def doesTaskOccurOnDate (task : Task) (date : Int) : Bool :=
  let rule := task.recurrence
  if date < rule.startDate then false
  else if (match rule.endDate with | some e => decide (e < date) | none => false) then false
  else
    match rule.type with
    | RecType.once => date == rule.startDate
    | RecType.daily => true
    | RecType.weekly => checkWeeklyRecurrence date rule
    | RecType.monthly => checkMonthlyRecurrence date rule
    | RecType.custom => checkCustomRecurrence date rule

/-- RecurrenceEngineService.getOccurrenceDates: inclusive day-by-day scan of
[startDate, endDate]. -/
def getOccurrenceDates (task : Task) (startDate endDate : Int) : List Int :=
  ((List.range (endDate - startDate + 1).toNat).map (fun i => startDate + (i : Int))).filter
    (fun d => doesTaskOccurOnDate task d)

/-- RecurrenceEngineService.getNextOccurrence: linear scan of the
`maxDaysAhead` days after `afterDate` (the day right after it first). -/
def getNextOccurrence (task : Task) (afterDate : Int) (maxDaysAhead : Nat := 365) : Option Int :=
  ((List.range maxDaysAhead).map (fun i => afterDate + 1 + (i : Int))).find?
    (fun d => doesTaskOccurOnDate task d)

/-! ## LocationFilterService -/

/-- LocationFilterService.isLocationAllowed. -/
def isLocationAllowed (task : Task) (currentLocation : String) : Bool :=
  match task.locationCondition with
  | none => true
  | some condition =>
    let excludedHit :=
      match condition.excludedLocations with
      | some ex => 0 < ex.length && ex.contains currentLocation
      | none => false
    if excludedHit then false
    else
      match condition.allowedLocations with
      | some al => if 0 < al.length then al.contains currentLocation else true
      | none => true

/-- LocationFilterService.filterTasksByLocation. -/
def filterTasksByLocation (tasks : List Task) (currentLocation : String) : List Task :=
  tasks.filter (fun task => isLocationAllowed task currentLocation)

/-! ## TaskInstanceRepository (over the list-modelled `taskInstances` store) -/

/-- TaskInstanceRepository.getByDate (the by-date index read). -/
def getByDate (l : List TaskInstance) (date : Int) : List TaskInstance :=
  l.filter (fun i => i.date == date)

/-- TaskInstanceRepository.getByTaskId (the by-taskId index read). -/
def getByTaskId (l : List TaskInstance) (taskId : String) : List TaskInstance :=
  l.filter (fun i => i.taskId == taskId)

/-- TaskInstanceRepository.getByTaskAndDate: `getByDate(date).find(i => i.taskId === taskId)`. -/
def getByTaskAndDate (l : List TaskInstance) (taskId : String) (date : Int) :
    Option TaskInstance :=
  (getByDate l date).find? (fun i => i.taskId == taskId)

/-- TaskInstanceRepository.upsert, i.e. IndexedDB `put` keyed by the `id`
field: replace the record with the same id in place, or add the record when
its id is new. -/
def putInstance (l : List TaskInstance) (inst : TaskInstance) : List TaskInstance :=
  if l.any (fun j => j.id == inst.id) then
    l.map (fun j => if j.id == inst.id then inst else j)
  else l ++ [inst]

/-- TaskRepository.getById (`storage.get('tasks', id)`). -/
def getTaskById (st : AppState) (taskId : String) : Option Task :=
  st.tasks.find? (fun t => t.id == taskId)

/-! ## InstanceResolutionService: mutations -/

/-- InstanceResolutionService.generateInstanceId: the composite
`taskId + "_" + date` key. -/
def generateInstanceId (taskId : String) (date : Int) : String :=
  taskId ++ "_" ++ formatDate date

/-- The record InstanceResolutionService.completeTask passes to
`instanceRepo.upsert`: the existing record for (taskId, date) if any, else a
fresh one, then status := completed, completedAt := now, and value
overwritten only when a value argument was supplied. -/
def completeTaskInstance (st : AppState) (taskId : String) (date : Int)
    (value : Option TaskValue) (now : String) : TaskInstance :=
  let existing := getByTaskAndDate st.instances taskId date
  let inst0 : TaskInstance :=
    match existing with
    | some i => i
    | none =>
      { id := generateInstanceId taskId date, taskId := taskId, date := date,
        status := Status.completed, completedAt := some now, value := value }
  { inst0 with
    status := Status.completed,
    completedAt := some now,
    value := match value with | some v => some v | none => inst0.value }

/-- InstanceResolutionService.completeTask. -/
def completeTask (st : AppState) (taskId : String) (date : Int)
    (value : Option TaskValue) (now : String) : AppState :=
  { st with instances := putInstance st.instances (completeTaskInstance st taskId date value now) }

/-- The record InstanceResolutionService.skipTask passes to `upsert`: the
existing record if any (only its status is changed), else a fresh record
with status skipped and no value / completedAt. -/
def skipTaskInstance (st : AppState) (taskId : String) (date : Int) : TaskInstance :=
  match getByTaskAndDate st.instances taskId date with
  | some i => { i with status := Status.skipped }
  | none =>
    { id := generateInstanceId taskId date, taskId := taskId, date := date,
      status := Status.skipped, value := none, completedAt := none }

/-- InstanceResolutionService.skipTask. -/
def skipTask (st : AppState) (taskId : String) (date : Int) : AppState :=
  { st with instances := putInstance st.instances (skipTaskInstance st taskId date) }

/-- The record InstanceResolutionService.resetTask writes, when one exists:
status := pending, completedAt and value cleared. -/
def resetTaskInstance (st : AppState) (taskId : String) (date : Int) : Option TaskInstance :=
  (getByTaskAndDate st.instances taskId date).map
    (fun i => { i with status := Status.pending, completedAt := none, value := none })

/-- InstanceResolutionService.resetTask: no-op when no record exists. -/
def resetTask (st : AppState) (taskId : String) (date : Int) : AppState :=
  match resetTaskInstance st taskId date with
  | some i => { st with instances := putInstance st.instances i }
  | none => st

/-! ## StreakEngineService -/

/-- The backward day-by-day `while (currentDate >= startDate)` loop of
StreakEngineService.calculateStreak, as a recursion on the remaining number
of days (the fuel is exactly the length of [startDate, d]): skip
non-occurrence days, count a completed record and continue, stop at an
occurrence day without one. -/
def streakWalk (st : AppState) (task : Task) : Nat → Int → Nat
  | 0, _ => 0
  | fuel + 1, d =>
    if d < task.recurrence.startDate then 0
    else if doesTaskOccurOnDate task d then
      match getByTaskAndDate st.instances task.id d with
      | some inst =>
        if inst.status = Status.completed then streakWalk st task fuel (d - 1) + 1 else 0
      | none => 0
    else streakWalk st task fuel (d - 1)

/-- StreakEngineService.calculateStreak. -/
def calculateStreak (st : AppState) (taskId : String) (upToDate : Int) : Nat :=
  match getTaskById st taskId with
  | none => 0
  | some task =>
    if !task.streakEnabled then 0
    else streakWalk st task (upToDate - task.recurrence.startDate + 1).toNat upToDate

/-- StreakEngineService.isStreakBroken. -/
def isStreakBroken (st : AppState) (taskId : String) (date : Int) : Bool :=
  match getTaskById st taskId with
  | none => false
  | some task =>
    if !task.streakEnabled then false
    else if !doesTaskOccurOnDate task date then false
    else
      match getByTaskAndDate st.instances taskId date with
      | none => true
      | some inst => !(inst.status == Status.completed)

/-- StreakEngineService.getLongestStreak: completed record dates sorted
ascending (JS lexicographic sort of `YYYY-MM-DD` strings is chronological),
then one pass tracking (longestStreak, currentStreak, lastOccurrenceDate):
non-occurrence completion dates are skipped; a completion is consecutive iff
it equals `getNextOccurrence` of the previous occurrence date. -/
def getLongestStreak (st : AppState) (taskId : String) : Nat :=
  match getTaskById st taskId with
  | none => 0
  | some task =>
    if !task.streakEnabled then 0
    else
      let instances := getByTaskId st.instances taskId
      let completedDates :=
        ((instances.filter (fun i => i.status == Status.completed)).map
          (fun i => i.date)).insertionSort (· ≤ ·)
      if completedDates.isEmpty then 0
      else
        let result := completedDates.foldl
          (fun (acc : Nat × Nat × Option Int) date =>
            if !doesTaskOccurOnDate task date then acc
            else
              match acc.2.2 with
              | none => (acc.1, 1, some date)
              | some lastOcc =>
                if getNextOccurrence task lastOcc = some date then
                  (acc.1, acc.2.1 + 1, some date)
                else (max acc.1 acc.2.1, 1, some date))
          (0, 0, none)
        max result.1 result.2.1

/-- The result record of StreakEngineService.getStreakStats.  The completion
rate `(totalCompletions / totalOccurrences) * 100` is JS number division,
embedded as exact rational arithmetic. -/
structure StreakStats where
  currentStreak : Nat
  longestStreak : Nat
  totalCompletions : Nat
  totalOccurrences : Nat
  completionRate : Rat
deriving DecidableEq, Repr

/-- StreakEngineService.getStreakStats. -/
def getStreakStats (st : AppState) (taskId : String) (upToDate : Int) : StreakStats :=
  match getTaskById st taskId with
  | none =>
    { currentStreak := 0, longestStreak := 0, totalCompletions := 0,
      totalOccurrences := 0, completionRate := 0 }
  | some task =>
    let currentStreak := calculateStreak st taskId upToDate
    let longestStreak := getLongestStreak st taskId
    let startDate := task.recurrence.startDate
    let occurrenceDates := getOccurrenceDates task startDate upToDate
    let totalOccurrences := occurrenceDates.length
    let instances := getByTaskId st.instances taskId
    let totalCompletions := (instances.filter (fun i => i.status == Status.completed)).length
    let completionRate : Rat :=
      if 0 < totalOccurrences then
        ((totalCompletions : Rat) / (totalOccurrences : Rat)) * 100
      else 0
    { currentStreak := currentStreak, longestStreak := longestStreak,
      totalCompletions := totalCompletions, totalOccurrences := totalOccurrences,
      completionRate := completionRate }

/-! ## CalendarAggregationService -/

/-- Lookup in `new Map(instances.map(i => [i.taskId, i]))`: when several
records share a taskId the last one wins, so the lookup finds the last
matching list entry. -/
def instMapGet (instances : List TaskInstance) (taskId : String) : Option TaskInstance :=
  instances.reverse.find? (fun i => i.taskId == taskId)

/-- CalendarAggregationService.generateIcons: the conditional pushes onto an
initially empty array, in the source's fixed order. -/
def generateIcons (completed total : Nat) (hasNote hasFinance streakBroken : Bool) :
    List String :=
  let icons : List String := []
  let icons :=
    if 0 < total then
      icons ++ [if completed = total then "✓" else if 0 < completed then "◐" else "○"]
    else icons
  let icons := if hasNote then icons ++ ["📝"] else icons
  let icons := if hasFinance then icons ++ ["💰"] else icons
  let icons := if streakBroken then icons ++ ["⚠️"] else icons
  icons

/-- CalendarAggregationService.buildDayView.  `allTasks` and `instances` are
the batch-loaded lists the callers pass in; `st` backs the repository reads
performed by `isStreakBroken`. -/
def buildDayView (st : AppState) (date : Int) (allTasks : List Task)
    (instances : List TaskInstance) (hasRecord hasFinance : Bool)
    (currentLocation : String) : CalendarDayView :=
  let tasksForDate := allTasks.filter (fun task => doesTaskOccurOnDate task date)
  let locationFilteredTasks := filterTasksByLocation tasksForDate currentLocation
  let tasksTotal := locationFilteredTasks.length
  let counts := locationFilteredTasks.foldl
    (fun (acc : Nat × Bool) task =>
      match instMapGet instances task.id with
      | some inst =>
        if inst.status = Status.completed then (acc.1 + 1, acc.2)
        else if task.streakEnabled then (acc.1, acc.2 || isStreakBroken st task.id date)
        else acc
      | none =>
        if task.streakEnabled then (acc.1, acc.2 || isStreakBroken st task.id date)
        else acc)
    (0, false)
  let icons := generateIcons counts.1 tasksTotal hasRecord hasFinance counts.2
  { date := date, tasksCompleted := counts.1, tasksTotal := tasksTotal,
    hasNote := hasRecord, hasFinanceEntry := hasFinance,
    streakBroken := counts.2, icons := icons }

/-! ## Shared lemmas about the store operations -/

/-- The (task, date) pair predicate that `getByTaskAndDate` checks, fused:
the by-date filter followed by the taskId search. -/
def matchesPair (taskId : String) (date : Int) (i : TaskInstance) : Bool :=
  i.date == date && i.taskId == taskId

theorem find?_filter_fuse {α : Type} (l : List α) (p q : α → Bool) :
    (l.filter p).find? q = l.find? (fun a => p a && q a) := by
  induction l with
  | nil => rfl
  | cons a l ih =>
    cases hp : p a <;> cases hq : q a <;>
      simp [List.filter_cons, List.find?_cons, hp, hq, ih]

theorem getByTaskAndDate_eq_find? (l : List TaskInstance) (t : String) (d : Int) :
    getByTaskAndDate l t d = l.find? (matchesPair t d) := by
  unfold getByTaskAndDate getByDate matchesPair
  exact find?_filter_fuse l _ _

theorem find?_eq_head?_filter {α : Type} (l : List α) (p : α → Bool) :
    l.find? p = (l.filter p).head? := by
  induction l with
  | nil => rfl
  | cons a l ih =>
    cases hp : p a
    · rw [List.find?_cons_of_neg _ (by simp [hp]), List.filter_cons_of_neg (by simp [hp]), ih]
    · rw [List.find?_cons_of_pos _ hp, List.filter_cons_of_pos hp, List.head?_cons]

theorem getByTaskAndDate_of_filter_eq {l : List TaskInstance} {t : String} {d : Int}
    {w : TaskInstance} (h : l.filter (matchesPair t d) = [w]) :
    getByTaskAndDate l t d = some w := by
  rw [getByTaskAndDate_eq_find?, find?_eq_head?_filter, h]
  rfl

theorem matchesPair_iff {t : String} {d : Int} {i : TaskInstance} :
    matchesPair t d i = true ↔ i.date = d ∧ i.taskId = t := by
  simp [matchesPair]

theorem getByTaskAndDate_eq_none_iff {l : List TaskInstance} {t : String} {d : Int} :
    getByTaskAndDate l t d = none ↔ ∀ i ∈ l, matchesPair t d i = false := by
  rw [getByTaskAndDate_eq_find?, List.find?_eq_none]
  constructor
  · intro h i hi
    have := h i hi
    simpa using this
  · intro h i hi
    simp [h i hi]

theorem getByTaskAndDate_some {l : List TaskInstance} {t : String} {d : Int}
    {r : TaskInstance} (h : getByTaskAndDate l t d = some r) :
    r ∈ l ∧ r.date = d ∧ r.taskId = t := by
  rw [getByTaskAndDate_eq_find?] at h
  refine ⟨List.mem_of_find?_eq_some h, ?_⟩
  exact matchesPair_iff.mp (List.find?_some h)

theorem filter_singleton_of_card_le_one {α : Type} {p : α → Bool} {l : List α} {r : α}
    (hlen : (l.filter p).length ≤ 1) (hr : r ∈ l) (hpr : p r = true) :
    l.filter p = [r] := by
  have hmem : r ∈ l.filter p := List.mem_filter.mpr ⟨hr, hpr⟩
  match hfe : l.filter p with
  | [] => rw [hfe] at hmem; cases hmem
  | [a] =>
    rw [hfe] at hmem
    have : r = a := by simpa using hmem
    rw [this]
  | a :: b :: rest => rw [hfe] at hlen; simp at hlen

/-- Replacing (by id) the unique p-satisfying record of a duplicate-id-free
list with a p-satisfying record leaves exactly that record as the filter. -/
theorem filter_map_replace {l : List TaskInstance} {w x : TaskInstance}
    {p : TaskInstance → Bool}
    (hx : x ∈ l) (hxid : x.id = w.id) (hpw : p w = true)
    (hnd : (l.map TaskInstance.id).Nodup)
    (hother : ∀ j ∈ l, j ≠ x → p j = false) :
    (l.map (fun j => if j.id == w.id then w else j)).filter p = [w] := by
  induction l with
  | nil => cases hx
  | cons a l ih =>
    rw [List.map_cons, List.nodup_cons] at hnd
    obtain ⟨hnd1, hnd2⟩ := hnd
    rcases List.mem_cons.mp hx with rfl | hxl
    · have hbeq : (x.id == w.id) = true := by simp [hxid]
      rw [List.map_cons, hbeq, if_pos rfl, List.filter_cons_of_pos hpw]
      have htail : (l.map (fun j => if j.id == w.id then w else j)).filter p = [] := by
        rw [List.filter_eq_nil_iff]
        intro b hb
        obtain ⟨j, hj, rfl⟩ := List.mem_map.mp hb
        have hjid : j.id ≠ w.id := by
          intro hcon
          exact hnd1 (by rw [← hxid] at hcon; exact hcon ▸ List.mem_map_of_mem _ hj)
        rw [if_neg (by simp [hjid])]
        have hjx : j ≠ x := fun hcc => hjid (by rw [hcc, hxid])
        simp [hother j (List.mem_cons_of_mem _ hj) hjx]
      rw [htail]
    · have haid : a.id ≠ w.id := by
        intro hcon
        exact hnd1 (by rw [hcon, ← hxid]; exact List.mem_map_of_mem _ hxl)
      have hax : a ≠ x := fun hcc => haid (by rw [hcc, hxid])
      have hpa : p a = false := hother a (List.mem_cons_self a l) hax
      rw [List.map_cons, if_neg (by simp [haid]), List.filter_cons_of_neg (by simp [hpa])]
      exact ih hxl hnd2 (fun j hj hjx => hother j (List.mem_cons_of_mem _ hj) hjx)

/-- After an upsert of a record that satisfies the pair predicate, when every
pre-existing pair record shares the upserted id, the pair filter is exactly
the upserted record. -/
theorem filter_putInstance {l : List TaskInstance} {w : TaskInstance} {t : String} {d : Int}
    (hw : matchesPair t d w = true)
    (hnd : (l.map TaskInstance.id).Nodup)
    (honly : ∀ j ∈ l, matchesPair t d j = true → j.id = w.id) :
    (putInstance l w).filter (matchesPair t d) = [w] := by
  unfold putInstance
  by_cases hany : l.any (fun j => j.id == w.id)
  · rw [if_pos hany]
    obtain ⟨x, hx, hxid⟩ := List.any_eq_true.mp hany
    have hxid' : x.id = w.id := by simpa using hxid
    refine filter_map_replace hx hxid' hw hnd ?_
    intro j hj hjx
    by_contra hpj
    have hpj' : matchesPair t d j = true := by
      cases hpj2 : matchesPair t d j
      · exact absurd hpj2 hpj
      · rfl
    have hjid : j.id = w.id := honly j hj hpj'
    exact hjx (List.inj_on_of_nodup_map hnd hj hx (by rw [hjid, hxid']))
  · rw [if_neg hany]
    have hempty : l.filter (matchesPair t d) = [] := by
      rw [List.filter_eq_nil_iff]
      intro j hj hpj
      have hjid : j.id = w.id := honly j hj (by simpa using hpj)
      exact hany (List.any_eq_true.mpr ⟨j, hj, by simp [hjid]⟩)
    rw [List.filter_append, hempty, List.filter_cons_of_pos hw]
    rfl

/-- Upserting never introduces a duplicate id. -/
theorem nodup_putInstance {l : List TaskInstance} (w : TaskInstance)
    (hnd : (l.map TaskInstance.id).Nodup) :
    ((putInstance l w).map TaskInstance.id).Nodup := by
  unfold putInstance
  by_cases hany : l.any (fun j => j.id == w.id)
  · rw [if_pos hany]
    have hmaps : (l.map (fun j => if j.id == w.id then w else j)).map TaskInstance.id =
        l.map TaskInstance.id := by
      rw [List.map_map]
      refine List.map_congr_left ?_
      intro j _
      by_cases h : j.id = w.id
      · simp [Function.comp, h]
      · simp [Function.comp, h]
    rw [hmaps]
    exact hnd
  · rw [if_neg hany]
    rw [List.map_append, List.nodup_append]
    refine ⟨hnd, by simp, ?_⟩
    intro a ha hb
    have hb' : a = w.id := by simpa using hb
    obtain ⟨j, hj, rfl⟩ := List.mem_map.mp ha
    exact hany (List.any_eq_true.mpr ⟨j, hj, by simp [hb']⟩)

/-- Upserting leaves every record with a different id in the store. -/
theorem mem_putInstance_of_ne {l : List TaskInstance} {w j : TaskInstance}
    (hj : j ∈ l) (hne : j.id ≠ w.id) : j ∈ putInstance l w := by
  unfold putInstance
  by_cases hany : l.any (fun x => x.id == w.id)
  · rw [if_pos hany]
    have : (fun x => if x.id == w.id then w else x) j = j := by simp [hne]
    exact this ▸ List.mem_map_of_mem _ hj
  · rw [if_neg hany]
    exact List.mem_append_left _ hj

/-! ## C7: the location filter rule -/

/-- The location rule in the spec's own phrasing, for comparison with
`isLocationAllowed`: absent condition allows everywhere; a present non-empty
deny-list containing the location denies; otherwise a present non-empty
allow-list decides by membership; otherwise allowed. -/
def locationRuleSpec (task : Task) (currentLocation : String) : Bool :=
  match task.locationCondition with
  | none => true
  | some c =>
    if (match c.excludedLocations with
        | some ex => !ex.isEmpty && ex.contains currentLocation
        | none => false) then false
    else if (match c.allowedLocations with
        | some al => !al.isEmpty
        | none => false) then
      (c.allowedLocations.getD []).contains currentLocation
    else true

/-- The task of spec Scenario C: allowedLocations=["home"],
excludedLocations=["office"]. -/
def scenarioCTask : Task :=
  { id := "c", title := "c", streakEnabled := false, priority := 0, isArchived := false,
    recurrence := { type := RecType.daily, daysOfWeek := none, dayOfMonth := none,
                    startDate := 0, endDate := none },
    locationCondition :=
      some { allowedLocations := some ["home"], excludedLocations := some ["office"] } }

/-- C7: `isLocationAllowed` implements exactly the spec rule — absent
condition allows every location, a non-empty deny-list containing the
location denies regardless of the allow-list, otherwise a non-empty
allow-list allows exactly its members, otherwise the location is allowed —
and on Scenario C (allow=["home"], deny=["office"]) it returns false for
"office", true for "home", false for "outside". -/
theorem location_filter_rule :
    (∀ (task : Task) (loc : String), isLocationAllowed task loc = locationRuleSpec task loc)
    ∧ isLocationAllowed scenarioCTask "office" = false
    ∧ isLocationAllowed scenarioCTask "home" = true
    ∧ isLocationAllowed scenarioCTask "outside" = false := by
  refine ⟨?_, by decide, by decide, by decide⟩
  intro task loc
  unfold isLocationAllowed locationRuleSpec
  cases task.locationCondition with
  | none => rfl
  | some c =>
    rcases c with ⟨al, ex⟩
    rcases ex with _ | ⟨_ | ⟨e, ex⟩⟩ <;>
      rcases al with _ | ⟨_ | ⟨a, al⟩⟩ <;>
        simp [List.isEmpty]

/-! ## C6: custom recurrence is a conjunction of optional checks -/

/-- C6: for a rule of kind custom and a date inside the start/end range
(with a well-formed 1–31 day-of-month when present), occurrence is the
conjunction of the weekday-set membership check (applied only when a
non-empty weekday set is present) and the day-of-month check (applied only
when a day-of-month is present); with neither field present every in-range
date occurs. -/
theorem custom_recurrence_conjunction :
    ∀ (task : Task) (date : Int),
      task.recurrence.type = RecType.custom →
      task.recurrence.startDate ≤ date →
      (∀ e, task.recurrence.endDate = some e → date ≤ e) →
      (∀ k, task.recurrence.dayOfMonth = some k → 1 ≤ k ∧ k ≤ 31) →
      (doesTaskOccurOnDate task date =
        ((match task.recurrence.daysOfWeek with
          | some days => days.isEmpty || days.contains (weekdayOf date)
          | none => true)
         &&
         (match task.recurrence.dayOfMonth with
          | some k => dayOfMonthOf date == k
          | none => true)))
      ∧ (task.recurrence.daysOfWeek = none → task.recurrence.dayOfMonth = none →
          doesTaskOccurOnDate task date = true) := by
  intro task date htype hstart hend hdom
  have hmain : doesTaskOccurOnDate task date =
      ((match task.recurrence.daysOfWeek with
        | some days => days.isEmpty || days.contains (weekdayOf date)
        | none => true)
       &&
       (match task.recurrence.dayOfMonth with
        | some k => dayOfMonthOf date == k
        | none => true)) := by
    have hendFalse :
        (match task.recurrence.endDate with
          | some e => decide (e < date)
          | none => false) = false := by
      cases he : task.recurrence.endDate with
      | none => rfl
      | some e =>
        simp only [decide_eq_false_iff_not, not_lt]
        exact hend e he
    have hocc : doesTaskOccurOnDate task date = checkCustomRecurrence date task.recurrence := by
      unfold doesTaskOccurOnDate
      rw [if_neg (by omega : ¬ date < task.recurrence.startDate), hendFalse,
        if_neg (by simp), htype]
    rw [hocc]
    unfold checkCustomRecurrence
    cases hdw : task.recurrence.daysOfWeek with
    | none =>
      cases hdm : task.recurrence.dayOfMonth with
      | none => simp
      | some k =>
        have hk0 : k ≠ 0 := by have := hdom k hdm; omega
        simp [checkMonthlyRecurrence, hdm, hk0]
    | some days =>
      cases hdm : task.recurrence.dayOfMonth with
      | none =>
        cases days with
        | nil => simp
        | cons a l => simp [checkWeeklyRecurrence, hdw]
      | some k =>
        have hk0 : k ≠ 0 := by have := hdom k hdm; omega
        cases days with
        | nil => simp [checkMonthlyRecurrence, hdm, hk0]
        | cons a l =>
          simp [checkWeeklyRecurrence, checkMonthlyRecurrence, hdw, hdm, hk0]
  refine ⟨hmain, ?_⟩
  intro hdw hdm
  rw [hmain, hdw, hdm]
  rfl

/-- The concrete custom rule used to instantiate C6: every Monday that is
also the 1st of the month, at 2024-01-01 (a Monday and a 1st). -/
def c6Task : Task :=
  { id := "x", title := "x", locationCondition := none, streakEnabled := false,
    priority := 0, isArchived := false,
    recurrence := { type := RecType.custom, daysOfWeek := some [1], dayOfMonth := some 1,
                    startDate := civilToDays 2024 1 1, endDate := none } }

/-- Witness for C6 at the concrete composite rule and date. -/
theorem custom_recurrence_conjunction_witness :
    doesTaskOccurOnDate c6Task (civilToDays 2024 1 1) =
      (([1].isEmpty || [1].contains (weekdayOf (civilToDays 2024 1 1)))
        && (dayOfMonthOf (civilToDays 2024 1 1) == 1)) :=
  (custom_recurrence_conjunction c6Task (civilToDays 2024 1 1) rfl (by decide)
    (fun e he => nomatch he)
    (fun k hk => by injection hk with h; omega)).1

/-! ## C8: calendar day indicator icons -/

/-- C8: the indicator list is, in this fixed order, a completion glyph only
when the day has scheduled tasks (all-done / partially-done / none-done), a
note glyph only when a wellness record exists, a finance glyph only when a
finance entry exists, and a streak-broken warning glyph only when the flag
holds; `buildDayView` derives its icons exactly this way, so a day with zero
scheduled tasks carries no completion glyph. -/
theorem calendar_icons_fixed_order :
    (∀ (completed total : Nat) (hasNote hasFinance streakBroken : Bool),
      generateIcons completed total hasNote hasFinance streakBroken =
        (if 0 < total then
          [if completed = total then "✓" else if 0 < completed then "◐" else "○"]
         else [])
        ++ (if hasNote then ["📝"] else [])
        ++ (if hasFinance then ["💰"] else [])
        ++ (if streakBroken then ["⚠️"] else []))
    ∧ (∀ (st : AppState) (date : Int) (allTasks : List Task)
        (instances : List TaskInstance) (hasRecord hasFinance : Bool) (loc : String),
        (buildDayView st date allTasks instances hasRecord hasFinance loc).icons =
          generateIcons
            (buildDayView st date allTasks instances hasRecord hasFinance loc).tasksCompleted
            (buildDayView st date allTasks instances hasRecord hasFinance loc).tasksTotal
            hasRecord hasFinance
            (buildDayView st date allTasks instances hasRecord hasFinance loc).streakBroken)
    ∧ (∀ (st : AppState) (date : Int) (allTasks : List Task)
        (instances : List TaskInstance) (hasRecord hasFinance : Bool) (loc : String),
        (buildDayView st date allTasks instances hasRecord hasFinance loc).tasksTotal = 0 →
          "✓" ∉ (buildDayView st date allTasks instances hasRecord hasFinance loc).icons
          ∧ "◐" ∉ (buildDayView st date allTasks instances hasRecord hasFinance loc).icons
          ∧ "○" ∉ (buildDayView st date allTasks instances hasRecord hasFinance loc).icons) := by
  have hgen : ∀ (completed total : Nat) (hasNote hasFinance streakBroken : Bool),
      generateIcons completed total hasNote hasFinance streakBroken =
        (if 0 < total then
          [if completed = total then "✓" else if 0 < completed then "◐" else "○"]
         else [])
        ++ (if hasNote then ["📝"] else [])
        ++ (if hasFinance then ["💰"] else [])
        ++ (if streakBroken then ["⚠️"] else []) := by
    intro completed total hasNote hasFinance streakBroken
    cases hasNote <;> cases hasFinance <;> cases streakBroken <;>
      by_cases ht : 0 < total <;>
        simp [generateIcons, ht]
  have hview : ∀ (st : AppState) (date : Int) (allTasks : List Task)
      (instances : List TaskInstance) (hasRecord hasFinance : Bool) (loc : String),
      (buildDayView st date allTasks instances hasRecord hasFinance loc).icons =
        generateIcons
          (buildDayView st date allTasks instances hasRecord hasFinance loc).tasksCompleted
          (buildDayView st date allTasks instances hasRecord hasFinance loc).tasksTotal
          hasRecord hasFinance
          (buildDayView st date allTasks instances hasRecord hasFinance loc).streakBroken := by
    intro st date allTasks instances hasRecord hasFinance loc
    rfl
  refine ⟨hgen, hview, ?_⟩
  intro st date allTasks instances hasRecord hasFinance loc h0
  rw [hview, h0, hgen]
  rw [if_neg (by omega : ¬ (0:Nat) < 0)]
  generalize (buildDayView st date allTasks instances hasRecord hasFinance loc).streakBroken = sb
  cases hasRecord <;> cases hasFinance <;> cases sb <;> decide

/-- Witness for C8: a day with no tasks at all has tasksTotal = 0 and its
icon list carries no completion glyph. -/
theorem calendar_icons_fixed_order_witness :
    "✓" ∉ (buildDayView ⟨[], []⟩ 0 [] [] true true "home").icons
    ∧ "◐" ∉ (buildDayView ⟨[], []⟩ 0 [] [] true true "home").icons
    ∧ "○" ∉ (buildDayView ⟨[], []⟩ 0 [] [] true true "home").icons :=
  calendar_icons_fixed_order.2.2 ⟨[], []⟩ 0 [] [] true true "home" rfl

/-! ## C1: what skipTask does to an existing record -/

/-- The store of the C1 counterexample: one record for ("t", day 100) that
was completed with a value and a completion timestamp. -/
def c1State : AppState :=
  { tasks := [],
    instances := [ { id := "t_x", taskId := "t", date := 100, status := Status.completed,
                     value := some (TaskValue.num 5), completedAt := some "ts" } ] }

/-- C1 counterexample: after skipTask on a previously completed record, the
record still carries its completion timestamp and value — they are not
cleared, contradicting the claim. -/
theorem skipTask_keeps_completion_counterexample :
    getByTaskAndDate (skipTask c1State "t" 100).instances "t" 100 =
      some { id := "t_x", taskId := "t", date := 100, status := Status.skipped,
             value := some (TaskValue.num 5), completedAt := some "ts" }
    ∧ (getByTaskAndDate (skipTask c1State "t" 100).instances "t" 100).map
        TaskInstance.completedAt ≠ some none
    ∧ (getByTaskAndDate (skipTask c1State "t" 100).instances "t" 100).map
        TaskInstance.value ≠ some none := by
  decide

/-- C1 as amended: skipTask upserts the record for the pair with
status=skipped, but does not clear the completion timestamp or value: an
existing record keeps its completedAt and value unchanged, and only a
freshly created record has neither (and gets the composite id). -/
theorem skipTask_upserts_skipped :
    ∀ (st : AppState) (taskId : String) (date : Int),
      (skipTaskInstance st taskId date).status = Status.skipped
      ∧ (∀ r, getByTaskAndDate st.instances taskId date = some r →
          skipTaskInstance st taskId date = { r with status := Status.skipped })
      ∧ (getByTaskAndDate st.instances taskId date = none →
          (skipTaskInstance st taskId date).value = none
          ∧ (skipTaskInstance st taskId date).completedAt = none
          ∧ (skipTaskInstance st taskId date).id = generateInstanceId taskId date) := by
  intro st taskId date
  refine ⟨?_, ?_, ?_⟩
  · unfold skipTaskInstance
    cases h : getByTaskAndDate st.instances taskId date <;> rfl
  · intro r hr
    unfold skipTaskInstance
    rw [hr]
  · intro hnone
    unfold skipTaskInstance
    rw [hnone]
    exact ⟨rfl, rfl, rfl⟩

/-- Witness for the amended C1 at the concrete completed record. -/
theorem skipTask_upserts_skipped_witness :
    skipTaskInstance c1State "t" 100 =
      { id := "t_x", taskId := "t", date := 100, status := Status.skipped,
        value := some (TaskValue.num 5), completedAt := some "ts" } :=
  (skipTask_upserts_skipped c1State "t" 100).2.1
    { id := "t_x", taskId := "t", date := 100, status := Status.completed,
      value := some (TaskValue.num 5), completedAt := some "ts" }
    (by decide)

/-! ## C2: bounds of the completion rate -/

/-- The C2 counterexample store: a daily task starting 2024-01-01 with
completed records on 2024-01-01 and 2024-01-02. -/
def c2Task : Task :=
  { id := "t", title := "t", locationCondition := none, streakEnabled := false,
    priority := 0, isArchived := false,
    recurrence := { type := RecType.daily, daysOfWeek := none, dayOfMonth := none,
                    startDate := civilToDays 2024 1 1, endDate := none } }

def c2State : AppState :=
  { tasks := [c2Task],
    instances :=
      [ { id := "a", taskId := "t", date := civilToDays 2024 1 1,
          status := Status.completed, value := none, completedAt := none },
        { id := "b", taskId := "t", date := civilToDays 2024 1 1 + 1,
          status := Status.completed, value := none, completedAt := none } ] }

/-- For an existing task the completion rate is the guarded quotient of the
other two statistics fields. -/
theorem completionRate_eq {st : AppState} {taskId : String} {upToDate : Int} {task : Task}
    (h : getTaskById st taskId = some task) :
    (getStreakStats st taskId upToDate).completionRate =
      if 0 < (getStreakStats st taskId upToDate).totalOccurrences then
        ((getStreakStats st taskId upToDate).totalCompletions : Rat) /
          ((getStreakStats st taskId upToDate).totalOccurrences : Rat) * 100
      else 0 := by
  simp [getStreakStats, h]

/-- C2 counterexample: `totalCompletions` counts every completed record of
the task regardless of date, while `totalOccurrences` only counts occurrence
days up to `upToDate`; with two completions and one occurrence the rate is
200, outside [0,100]. -/
theorem completionRate_above_100_counterexample :
    (getStreakStats c2State "t" (civilToDays 2024 1 1)).completionRate = 200
    ∧ ¬ (getStreakStats c2State "t" (civilToDays 2024 1 1)).completionRate ≤ 100 := by
  have htask : getTaskById c2State "t" = some c2Task := by decide
  have hocc : (getStreakStats c2State "t" (civilToDays 2024 1 1)).totalOccurrences = 1 := by
    decide
  have hcomp : (getStreakStats c2State "t" (civilToDays 2024 1 1)).totalCompletions = 2 := by
    decide
  have hrate := @completionRate_eq c2State "t" (civilToDays 2024 1 1) c2Task htask
  rw [hocc, hcomp] at hrate
  rw [if_pos (by norm_num)] at hrate
  rw [hrate]
  norm_num

/-- C2 as amended: the completion rate is always ≥ 0, it is exactly 0 when
totalOccurrences is 0, and it lies in [0,100] whenever totalCompletions ≤
totalOccurrences (the claimed upper bound 100 fails only when the task has
more completed records than occurrence days up to the query date). -/
theorem completionRate_bounds :
    ∀ (st : AppState) (taskId : String) (upToDate : Int),
      0 ≤ (getStreakStats st taskId upToDate).completionRate
      ∧ ((getStreakStats st taskId upToDate).totalOccurrences = 0 →
          (getStreakStats st taskId upToDate).completionRate = 0)
      ∧ ((getStreakStats st taskId upToDate).totalCompletions ≤
            (getStreakStats st taskId upToDate).totalOccurrences →
          (getStreakStats st taskId upToDate).completionRate ≤ 100) := by
  intro st taskId upToDate
  have base : ∀ c o : Nat,
      0 ≤ (if 0 < o then ((c : Rat) / (o : Rat)) * 100 else 0)
      ∧ (o = 0 → (if 0 < o then ((c : Rat) / (o : Rat)) * 100 else 0) = 0)
      ∧ (c ≤ o → (if 0 < o then ((c : Rat) / (o : Rat)) * 100 else 0) ≤ 100) := by
    intro c o
    refine ⟨?_, fun h0 => ?_, fun hco => ?_⟩
    · split
      · positivity
      · exact le_refl 0
    · rw [if_neg (by omega)]
    · split
      · rename_i ho
        have h1 : (c : Rat) ≤ (o : Rat) := by exact_mod_cast hco
        have h2 : (0 : Rat) < (o : Rat) := by exact_mod_cast ho
        have h3 : (c : Rat) / (o : Rat) ≤ 1 := (div_le_one h2).mpr h1
        calc ((c : Rat) / (o : Rat)) * 100 ≤ 1 * 100 := by
              exact mul_le_mul_of_nonneg_right h3 (by norm_num)
          _ = 100 := by norm_num
      · norm_num
  cases h : getTaskById st taskId with
  | none => simp [getStreakStats, h]
  | some task =>
    simp only [getStreakStats, h]
    exact base _ _

/-- Witness for the amended C2 on a small concrete store. -/
theorem completionRate_bounds_witness :
    (getStreakStats ⟨[], []⟩ "t" 0).completionRate = 0
    ∧ 0 ≤ (getStreakStats ⟨[], []⟩ "t" 0).completionRate
    ∧ (getStreakStats ⟨[], []⟩ "t" 0).completionRate ≤ 100 :=
  ⟨(completionRate_bounds ⟨[], []⟩ "t" 0).2.1 (by decide),
   (completionRate_bounds ⟨[], []⟩ "t" 0).1,
   (completionRate_bounds ⟨[], []⟩ "t" 0).2.2 (by decide)⟩

/-! ## C9: streak stats for a streak-disabled task -/

/-- C9 as amended: when the task is missing, getStreakStats returns the
early-exit all-zero record; when the task exists with streak tracking
disabled, both streak fields are 0 (the streak functions short-circuit)
while totalCompletions, totalOccurrences and completionRate are still
computed from the store's actual records and the occurrence scan (the rate
being the guarded quotient of the two counts).  (The all-zero result is NOT
exclusive to a missing task: an existing disabled task can also produce
it.) -/
theorem streakStats_disabled :
    ∀ (st : AppState) (taskId : String) (upToDate : Int),
      (getTaskById st taskId = none →
        getStreakStats st taskId upToDate =
          { currentStreak := 0, longestStreak := 0, totalCompletions := 0,
            totalOccurrences := 0, completionRate := 0 })
      ∧ (∀ task, getTaskById st taskId = some task → task.streakEnabled = false →
          (getStreakStats st taskId upToDate).currentStreak = 0
          ∧ (getStreakStats st taskId upToDate).longestStreak = 0
          ∧ (getStreakStats st taskId upToDate).totalCompletions =
              ((getByTaskId st.instances taskId).filter
                (fun i => i.status == Status.completed)).length
          ∧ (getStreakStats st taskId upToDate).totalOccurrences =
              (getOccurrenceDates task task.recurrence.startDate upToDate).length
          ∧ (getStreakStats st taskId upToDate).completionRate =
              (if 0 < (getOccurrenceDates task task.recurrence.startDate upToDate).length then
                (((getByTaskId st.instances taskId).filter
                    (fun i => i.status == Status.completed)).length : Rat) /
                  ((getOccurrenceDates task task.recurrence.startDate upToDate).length : Rat)
                  * 100
               else 0)) := by
  intro st taskId upToDate
  constructor
  · intro h
    simp [getStreakStats, h]
  · intro task h hdis
    simp [getStreakStats, h, calculateStreak, getLongestStreak, hdis]

/-- C9 counterexample to the exclusivity part of the claim: an existing task
(streak disabled, no records, start date after the query date) also yields
the fully zeroed statistics. -/
def c9Task : Task :=
  { id := "z", title := "z", locationCondition := none, streakEnabled := false,
    priority := 0, isArchived := false,
    recurrence := { type := RecType.daily, daysOfWeek := none, dayOfMonth := none,
                    startDate := 10, endDate := none } }

theorem streakStats_zero_for_existing_task :
    getStreakStats ⟨[c9Task], []⟩ "z" 5 =
      { currentStreak := 0, longestStreak := 0, totalCompletions := 0,
        totalOccurrences := 0, completionRate := 0 }
    ∧ getTaskById ⟨[c9Task], []⟩ "z" = some c9Task := by
  decide

/-- Witness state for the amended C9: a concrete disabled task with a
completed record. -/
def c9Task2 : Task :=
  { id := "z", title := "z", locationCondition := none, streakEnabled := false,
    priority := 0, isArchived := false,
    recurrence := { type := RecType.daily, daysOfWeek := none, dayOfMonth := none,
                    startDate := 0, endDate := none } }

def c9State2 : AppState :=
  { tasks := [c9Task2],
    instances := [ { id := "z_a", taskId := "z", date := 1, status := Status.completed,
                     value := none, completedAt := none } ] }

theorem streakStats_disabled_witness :
    (getStreakStats c9State2 "z" 3).currentStreak = 0
    ∧ (getStreakStats c9State2 "z" 3).longestStreak = 0
    ∧ (getStreakStats c9State2 "z" 3).totalCompletions =
        ((getByTaskId c9State2.instances "z").filter
          (fun i => i.status == Status.completed)).length
    ∧ (getStreakStats c9State2 "z" 3).totalOccurrences =
        (getOccurrenceDates c9Task2 c9Task2.recurrence.startDate 3).length
    ∧ (getStreakStats c9State2 "z" 3).completionRate =
        (if 0 < (getOccurrenceDates c9Task2 c9Task2.recurrence.startDate 3).length then
          (((getByTaskId c9State2.instances "z").filter
              (fun i => i.status == Status.completed)).length : Rat) /
            ((getOccurrenceDates c9Task2 c9Task2.recurrence.startDate 3).length : Rat) * 100
         else 0) :=
  (streakStats_disabled c9State2 "z" 3).2 c9Task2 (by decide) (by decide)

/-! ## C3: the backward streak walk -/

/-- The task of spec Scenario B: weekly, Mondays only, starting Monday
2024-01-01, streak tracking enabled. -/
def scenarioBTask : Task :=
  { id := "T", title := "T", locationCondition := none, streakEnabled := true,
    priority := 0, isArchived := false,
    recurrence := { type := RecType.weekly, daysOfWeek := some [1], dayOfMonth := none,
                    startDate := civilToDays 2024 1 1, endDate := none } }

/-- The store of Scenario B: completions on the two Mondays 2024-01-01 and
2024-01-08. -/
def scenarioBState : AppState :=
  { tasks := [scenarioBTask],
    instances :=
      [ { id := "T_2024-01-01", taskId := "T", date := civilToDays 2024 1 1,
          status := Status.completed, value := none, completedAt := some "c1" },
        { id := "T_2024-01-08", taskId := "T", date := civilToDays 2024 1 8,
          status := Status.completed, value := none, completedAt := some "c8" } ] }

/-- C3: for a streak-enabled task, calculateStreak walks backward one
calendar day at a time from upToDate down to the recurrence start date:
below the start date the streak is 0; a non-occurrence day neither breaks
nor extends the streak (the value equals the previous day's); an occurrence
day with a completed record adds 1 to the previous day's value; an
occurrence day without a completed record stops the walk at 0.  On Scenario
B (weekly Monday task started Monday 2024-01-01, completions on 2024-01-01
and 2024-01-08) the streak at 2024-01-08 is 2. -/
theorem calculateStreak_backward_walk :
    (∀ (st : AppState) (taskId : String) (task : Task) (d : Int),
      getTaskById st taskId = some task →
      task.streakEnabled = true →
      ((d < task.recurrence.startDate → calculateStreak st taskId d = 0)
       ∧ (task.recurrence.startDate ≤ d → doesTaskOccurOnDate task d = false →
            calculateStreak st taskId d = calculateStreak st taskId (d - 1))
       ∧ (∀ inst, task.recurrence.startDate ≤ d → doesTaskOccurOnDate task d = true →
            getByTaskAndDate st.instances task.id d = some inst →
            inst.status = Status.completed →
            calculateStreak st taskId d = calculateStreak st taskId (d - 1) + 1)
       ∧ (task.recurrence.startDate ≤ d → doesTaskOccurOnDate task d = true →
            (∀ inst, getByTaskAndDate st.instances task.id d = some inst →
              inst.status ≠ Status.completed) →
            calculateStreak st taskId d = 0)))
    ∧ calculateStreak scenarioBState "T" (civilToDays 2024 1 8) = 2 := by
  constructor
  · intro st taskId task d hfind hen
    have hcs : ∀ e : Int, calculateStreak st taskId e =
        streakWalk st task (e - task.recurrence.startDate + 1).toNat e := by
      intro e
      simp [calculateStreak, hfind, hen]
    refine ⟨?_, ?_, ?_, ?_⟩
    · intro hlt
      rw [hcs]
      have h0 : (d - task.recurrence.startDate + 1).toNat = 0 := by omega
      rw [h0]
      rfl
    · intro hge hocc
      rw [hcs, hcs]
      have hsuc : (d - task.recurrence.startDate + 1).toNat =
          ((d - 1) - task.recurrence.startDate + 1).toNat + 1 := by omega
      rw [hsuc]
      have hnlt : ¬ d < task.recurrence.startDate := by omega
      simp [streakWalk, hnlt, hocc]
    · intro inst hge hocc hinst hcompl
      rw [hcs, hcs]
      have hsuc : (d - task.recurrence.startDate + 1).toNat =
          ((d - 1) - task.recurrence.startDate + 1).toNat + 1 := by omega
      rw [hsuc]
      have hnlt : ¬ d < task.recurrence.startDate := by omega
      simp [streakWalk, hnlt, hocc, hinst, hcompl]
    · intro hge hocc hnotdone
      rw [hcs]
      have hsuc : (d - task.recurrence.startDate + 1).toNat =
          ((d - 1) - task.recurrence.startDate + 1).toNat + 1 := by omega
      rw [hsuc]
      have hnlt : ¬ d < task.recurrence.startDate := by omega
      cases hg : getByTaskAndDate st.instances task.id d with
      | none => simp [streakWalk, hnlt, hocc, hg]
      | some inst => simp [streakWalk, hnlt, hocc, hg, hnotdone inst hg]
  · decide

/-- Witness for C3: one concrete step of the walk on Scenario B — Monday
2024-01-08 is an occurrence day with a completed record, so the streak there
is one more than the streak at 2024-01-07. -/
theorem calculateStreak_backward_walk_witness :
    calculateStreak scenarioBState "T" (civilToDays 2024 1 8) =
      calculateStreak scenarioBState "T" (civilToDays 2024 1 8 - 1) + 1 :=
  (calculateStreak_backward_walk.1 scenarioBState "T" scenarioBTask
      (civilToDays 2024 1 8) (by decide) rfl).2.2.1
    { id := "T_2024-01-08", taskId := "T", date := civilToDays 2024 1 8,
      status := Status.completed, value := none, completedAt := some "c8" }
    (by decide) (by decide) (by decide) rfl

/-! ## C4, C5, C10: the mutation operations -/

theorem matchesPair_completeTaskInstance (st : AppState) (t : String) (d : Int)
    (v : Option TaskValue) (now : String) :
    matchesPair t d (completeTaskInstance st t d v now) = true := by
  unfold completeTaskInstance
  cases h : getByTaskAndDate st.instances t d with
  | none => simp [matchesPair]
  | some r =>
    obtain ⟨_, hrd, hrt⟩ := getByTaskAndDate_some h
    simp [matchesPair, hrd, hrt]

/-- After one completeTask on a store whose ids are duplicate-free and which
holds at most one record for the pair, the pair filter is exactly the
written record and both store invariants persist. -/
theorem completeTask_pair (st : AppState) (t : String) (d : Int) (v : Option TaskValue)
    (now : String)
    (hnd : (st.instances.map TaskInstance.id).Nodup)
    (hpair : (st.instances.filter (matchesPair t d)).length ≤ 1) :
    (completeTask st t d v now).instances.filter (matchesPair t d) =
        [completeTaskInstance st t d v now]
    ∧ ((completeTask st t d v now).instances.map TaskInstance.id).Nodup := by
  constructor
  · apply filter_putInstance (matchesPair_completeTaskInstance st t d v now) hnd
    intro j hj hpj
    cases hex : getByTaskAndDate st.instances t d with
    | none =>
      have := getByTaskAndDate_eq_none_iff.mp hex j hj
      rw [hpj] at this
      cases this
    | some r =>
      obtain ⟨hrmem, hrd, hrt⟩ := getByTaskAndDate_some hex
      have hfil : st.instances.filter (matchesPair t d) = [r] :=
        filter_singleton_of_card_le_one hpair hrmem (matchesPair_iff.mpr ⟨hrd, hrt⟩)
      have hjr : j = r := by
        have hjin : j ∈ st.instances.filter (matchesPair t d) :=
          List.mem_filter.mpr ⟨hj, hpj⟩
        rw [hfil] at hjin
        simpa using hjin
      have hwid : (completeTaskInstance st t d v now).id = r.id := by
        simp [completeTaskInstance, hex]
      rw [hjr, hwid]
  · exact nodup_putInstance _ hnd

/-- C4: completeTask is idempotent — starting from a store satisfying the
id-key and (task, date)-uniqueness invariants, two consecutive completeTask
calls leave exactly one record for the pair, with status completed and the
completion timestamp refreshed to the second call's clock; when no record
pre-existed, that record carries the deterministic composite id. -/
theorem completeTask_idempotent :
    ∀ (st : AppState) (t : String) (d : Int) (v1 v2 : Option TaskValue) (now1 now2 : String),
      (st.instances.map TaskInstance.id).Nodup →
      (st.instances.filter (matchesPair t d)).length ≤ 1 →
      (((completeTask (completeTask st t d v1 now1) t d v2 now2).instances.filter
          (matchesPair t d)).length = 1
       ∧ (getByTaskAndDate
            (completeTask (completeTask st t d v1 now1) t d v2 now2).instances t d).map
           TaskInstance.status = some Status.completed
       ∧ (getByTaskAndDate
            (completeTask (completeTask st t d v1 now1) t d v2 now2).instances t d).map
           TaskInstance.completedAt = some (some now2)
       ∧ (getByTaskAndDate st.instances t d = none →
           (getByTaskAndDate
              (completeTask (completeTask st t d v1 now1) t d v2 now2).instances t d).map
             TaskInstance.id = some (generateInstanceId t d))) := by
  intro st t d v1 v2 now1 now2 hnd hpair
  obtain ⟨h1, hnd1⟩ := completeTask_pair st t d v1 now1 hnd hpair
  have hget1 : getByTaskAndDate (completeTask st t d v1 now1).instances t d =
      some (completeTaskInstance st t d v1 now1) := getByTaskAndDate_of_filter_eq h1
  have hpair1 :
      ((completeTask st t d v1 now1).instances.filter (matchesPair t d)).length ≤ 1 := by
    rw [h1]
    exact le_refl 1
  obtain ⟨h2, hnd2⟩ := completeTask_pair (completeTask st t d v1 now1) t d v2 now2 hnd1 hpair1
  have hget2 :
      getByTaskAndDate (completeTask (completeTask st t d v1 now1) t d v2 now2).instances t d =
        some (completeTaskInstance (completeTask st t d v1 now1) t d v2 now2) :=
    getByTaskAndDate_of_filter_eq h2
  refine ⟨by rw [h2]; rfl, ?_, ?_, ?_⟩
  · rw [hget2]
    rfl
  · rw [hget2]
    rfl
  · intro hnone
    rw [hget2]
    have hid1 : (completeTaskInstance st t d v1 now1).id = generateInstanceId t d := by
      simp [completeTaskInstance, hnone]
    have hid2 : (completeTaskInstance (completeTask st t d v1 now1) t d v2 now2).id =
        (completeTaskInstance st t d v1 now1).id := by
      simp [completeTaskInstance, hget1]
    simp [hid2, hid1]

/-- Witness for C4: completing twice in an empty store leaves exactly one
completed record with the composite id and the second timestamp. -/
theorem completeTask_idempotent_witness :
    ((completeTask (completeTask ⟨[], []⟩ "t" 0 none "n1") "t" 0 none "n2").instances.filter
        (matchesPair "t" 0)).length = 1
    ∧ (getByTaskAndDate
         (completeTask (completeTask ⟨[], []⟩ "t" 0 none "n1") "t" 0 none "n2").instances
         "t" 0).map TaskInstance.status = some Status.completed
    ∧ (getByTaskAndDate
         (completeTask (completeTask ⟨[], []⟩ "t" 0 none "n1") "t" 0 none "n2").instances
         "t" 0).map TaskInstance.completedAt = some (some "n2")
    ∧ (getByTaskAndDate (⟨[], []⟩ : AppState).instances "t" 0 = none →
        (getByTaskAndDate
           (completeTask (completeTask ⟨[], []⟩ "t" 0 none "n1") "t" 0 none "n2").instances
           "t" 0).map TaskInstance.id = some (generateInstanceId "t" 0)) :=
  completeTask_idempotent ⟨[], []⟩ "t" 0 none none "n1" "n2" (by decide) (by decide)

/-- C5: resetTask after completeTask leaves, for the pair, exactly one
record with status pending and its completion timestamp and value cleared —
the record is not removed; and resetTask on a pair with no record is a
no-op on the whole store. -/
theorem resetTask_roundtrip :
    ∀ (st : AppState) (t : String) (d : Int) (v : Option TaskValue) (now : String),
      (st.instances.map TaskInstance.id).Nodup →
      (st.instances.filter (matchesPair t d)).length ≤ 1 →
      ((((resetTask (completeTask st t d v now) t d).instances.filter
          (matchesPair t d)).length = 1)
       ∧ (getByTaskAndDate (resetTask (completeTask st t d v now) t d).instances t d).map
           TaskInstance.status = some Status.pending
       ∧ (getByTaskAndDate (resetTask (completeTask st t d v now) t d).instances t d).map
           TaskInstance.completedAt = some none
       ∧ (getByTaskAndDate (resetTask (completeTask st t d v now) t d).instances t d).map
           TaskInstance.value = some none)
      ∧ (getByTaskAndDate st.instances t d = none → resetTask st t d = st) := by
  intro st t d v now hnd hpair
  constructor
  · obtain ⟨h1, hnd1⟩ := completeTask_pair st t d v now hnd hpair
    have hget1 : getByTaskAndDate (completeTask st t d v now).instances t d =
        some (completeTaskInstance st t d v now) := getByTaskAndDate_of_filter_eq h1
    have hreset : resetTaskInstance (completeTask st t d v now) t d =
        some { completeTaskInstance st t d v now with
               status := Status.pending, completedAt := none, value := none } := by
      simp [resetTaskInstance, hget1]
    have hrt : (resetTask (completeTask st t d v now) t d).instances =
        putInstance (completeTask st t d v now).instances
          { completeTaskInstance st t d v now with
            status := Status.pending, completedAt := none, value := none } := by
      rw [resetTask, hreset]
    have hw : matchesPair t d
        { completeTaskInstance st t d v now with
          status := Status.pending, completedAt := none, value := none } = true := by
      have hm := matchesPair_completeTaskInstance st t d v now
      simp [matchesPair] at hm ⊢
      exact hm
    have hfil : (putInstance (completeTask st t d v now).instances
        { completeTaskInstance st t d v now with
          status := Status.pending, completedAt := none, value := none }).filter
          (matchesPair t d) =
        [{ completeTaskInstance st t d v now with
           status := Status.pending, completedAt := none, value := none }] := by
      apply filter_putInstance hw hnd1
      intro j hj hpj
      have hjin : j ∈ (completeTask st t d v now).instances.filter (matchesPair t d) :=
        List.mem_filter.mpr ⟨hj, hpj⟩
      rw [h1] at hjin
      have hj1 : j = completeTaskInstance st t d v now := by simpa using hjin
      rw [hj1]
    have hget2 : getByTaskAndDate (resetTask (completeTask st t d v now) t d).instances t d =
        some { completeTaskInstance st t d v now with
               status := Status.pending, completedAt := none, value := none } := by
      rw [hrt]
      exact getByTaskAndDate_of_filter_eq hfil
    refine ⟨by rw [hrt, hfil]; rfl, by rw [hget2]; rfl, by rw [hget2]; rfl,
      by rw [hget2]; rfl⟩
  · intro hnone
    simp [resetTask, resetTaskInstance, hnone]

/-- Witness for C5: complete then reset in an empty store yields one pending
record with cleared fields, and reset on the empty store is a no-op. -/
theorem resetTask_roundtrip_witness :
    ((((resetTask (completeTask ⟨[], []⟩ "t" 0 (some (TaskValue.num 3)) "n") "t" 0).instances.filter
        (matchesPair "t" 0)).length = 1)
     ∧ (getByTaskAndDate
          (resetTask (completeTask ⟨[], []⟩ "t" 0 (some (TaskValue.num 3)) "n") "t" 0).instances
          "t" 0).map TaskInstance.status = some Status.pending
     ∧ (getByTaskAndDate
          (resetTask (completeTask ⟨[], []⟩ "t" 0 (some (TaskValue.num 3)) "n") "t" 0).instances
          "t" 0).map TaskInstance.completedAt = some none
     ∧ (getByTaskAndDate
          (resetTask (completeTask ⟨[], []⟩ "t" 0 (some (TaskValue.num 3)) "n") "t" 0).instances
          "t" 0).map TaskInstance.value = some none)
    ∧ (getByTaskAndDate (⟨[], []⟩ : AppState).instances "t" 0 = none →
        resetTask ⟨[], []⟩ "t" 0 = ⟨[], []⟩) :=
  resetTask_roundtrip ⟨[], []⟩ "t" 0 (some (TaskValue.num 3)) "n" (by decide) (by decide)

/-- C10: every mutation writes a record whose taskId and date equal the
arguments; the id is the composite `taskId_date` exactly when the record is
freshly created, and is the existing record's id otherwise; records with a
different id are never touched. -/
theorem mutation_identity_fields :
    ∀ (st : AppState) (t : String) (d : Int) (v : Option TaskValue) (now : String),
      ((completeTaskInstance st t d v now).taskId = t
       ∧ (completeTaskInstance st t d v now).date = d
       ∧ (getByTaskAndDate st.instances t d = none →
            (completeTaskInstance st t d v now).id = generateInstanceId t d)
       ∧ (∀ r, getByTaskAndDate st.instances t d = some r →
            (completeTaskInstance st t d v now).id = r.id))
      ∧ ((skipTaskInstance st t d).taskId = t
         ∧ (skipTaskInstance st t d).date = d
         ∧ (getByTaskAndDate st.instances t d = none →
              (skipTaskInstance st t d).id = generateInstanceId t d)
         ∧ (∀ r, getByTaskAndDate st.instances t d = some r →
              (skipTaskInstance st t d).id = r.id))
      ∧ (∀ r, getByTaskAndDate st.instances t d = some r →
          (resetTaskInstance st t d).map TaskInstance.taskId = some t
          ∧ (resetTaskInstance st t d).map TaskInstance.date = some d
          ∧ (resetTaskInstance st t d).map TaskInstance.id = some r.id)
      ∧ (∀ j ∈ st.instances, j.id ≠ (completeTaskInstance st t d v now).id →
          j ∈ (completeTask st t d v now).instances)
      ∧ (∀ j ∈ st.instances, j.id ≠ (skipTaskInstance st t d).id →
          j ∈ (skipTask st t d).instances)
      ∧ (∀ j ∈ st.instances, ∀ w, resetTaskInstance st t d = some w → j.id ≠ w.id →
          j ∈ (resetTask st t d).instances) := by
  intro st t d v now
  refine ⟨⟨?_, ?_, ?_, ?_⟩, ⟨?_, ?_, ?_, ?_⟩, ?_, ?_, ?_, ?_⟩
  · cases hex : getByTaskAndDate st.instances t d with
    | none => simp [completeTaskInstance, hex]
    | some r =>
      obtain ⟨_, _, hrt⟩ := getByTaskAndDate_some hex
      simp [completeTaskInstance, hex, hrt]
  · cases hex : getByTaskAndDate st.instances t d with
    | none => simp [completeTaskInstance, hex]
    | some r =>
      obtain ⟨_, hrd, _⟩ := getByTaskAndDate_some hex
      simp [completeTaskInstance, hex, hrd]
  · intro hnone
    simp [completeTaskInstance, hnone]
  · intro r hr
    simp [completeTaskInstance, hr]
  · cases hex : getByTaskAndDate st.instances t d with
    | none => simp [skipTaskInstance, hex]
    | some r =>
      obtain ⟨_, _, hrt⟩ := getByTaskAndDate_some hex
      simp [skipTaskInstance, hex, hrt]
  · cases hex : getByTaskAndDate st.instances t d with
    | none => simp [skipTaskInstance, hex]
    | some r =>
      obtain ⟨_, hrd, _⟩ := getByTaskAndDate_some hex
      simp [skipTaskInstance, hex, hrd]
  · intro hnone
    simp [skipTaskInstance, hnone]
  · intro r hr
    simp [skipTaskInstance, hr]
  · intro r hr
    obtain ⟨_, hrd, hrt⟩ := getByTaskAndDate_some hr
    simp [resetTaskInstance, hr, hrd, hrt]
  · intro j hj hne
    exact mem_putInstance_of_ne hj hne
  · intro j hj hne
    exact mem_putInstance_of_ne hj hne
  · intro j hj w hw hne
    have : (resetTask st t d).instances = putInstance st.instances w := by
      rw [resetTask, hw]
    rw [this]
    exact mem_putInstance_of_ne hj hne

/-- Witness state for C10: one record for the pair under a non-composite
legacy id. -/
def c10State : AppState :=
  { tasks := [],
    instances := [ { id := "legacy", taskId := "t", date := 5, status := Status.pending,
                     value := none, completedAt := none } ] }

/-- Witness for C10: updating an existing record keeps its id and identity
fields. -/
theorem mutation_identity_fields_witness :
    (completeTaskInstance c10State "t" 5 none "now").taskId = "t"
    ∧ (completeTaskInstance c10State "t" 5 none "now").date = 5
    ∧ (completeTaskInstance c10State "t" 5 none "now").id = "legacy"
    ∧ (skipTaskInstance c10State "t" 5).id = "legacy"
    ∧ (resetTaskInstance c10State "t" 5).map TaskInstance.id = some "legacy" :=
  ⟨(mutation_identity_fields c10State "t" 5 none "now").1.1,
   (mutation_identity_fields c10State "t" 5 none "now").1.2.1,
   (mutation_identity_fields c10State "t" 5 none "now").1.2.2.2
     { id := "legacy", taskId := "t", date := 5, status := Status.pending,
       value := none, completedAt := none } (by decide),
   (mutation_identity_fields c10State "t" 5 none "now").2.1.2.2.2
     { id := "legacy", taskId := "t", date := 5, status := Status.pending,
       value := none, completedAt := none } (by decide),
   ((mutation_identity_fields c10State "t" 5 none "now").2.2.1
     { id := "legacy", taskId := "t", date := 5, status := Status.pending,
       value := none, completedAt := none } (by decide)).2.2⟩

end LifeOS
